import Mathlib

/-! Shallow embedding of the SymCC QSYM-backend runtime
(`runtime/qsym_backend/Runtime.cpp`): the deferred address-constraint queue and
exact-dependency set of the sanitizer support (`_sym_asan_*`), the solver facade
(`_sym_feasible`, `saveValues`), the expression registry with its garbage
collector, and the test-case handler registration. -/

namespace SymccRuntime

/-- A `qsym::DependencySet` is an ordered set (`std::set`) of input-byte
offsets; `std::includes` on two such sorted ranges decides the subset
relation, so we model it as a `Finset ℕ`. -/
abbrev DependencySet := Finset Nat

/-- Raw identity of a symbolic expression (`SymExpr`, a raw pointer). -/
abbrev SymAddr := Nat

/-- The shapes of expressions the deferred queue synthesizes when promoting an
entry: `_sym_build_integer value bits` constants, an already-built symbolic
address expression (identified by its raw identity), and `_sym_build_equal`. -/
inductive CExpr where
  | const : Nat → Nat → CExpr
  | sym : SymAddr → CExpr
  | eq : CExpr → CExpr → CExpr
  deriving DecidableEq

/-- A path constraint as forwarded by `_sym_push_path_constraint(expr, taken,
site_id)` to the solver. -/
structure PathConstraint where
  expr : CExpr
  taken : Bool
  siteId : Nat
  deriving DecidableEq

/-- One entry of `g_delay_constraint_queue`: a dependency set mapped to the
pair (symbolic address expression, concrete address value). -/
abbrev QueueEntry := DependencySet × (SymAddr × Nat)

/-- The global state touched by the `_sym_asan_*` entry points:
`g_delay_constraint_queue` (modelled as a list in scan order, with insertion
appending), `g_exact_dependencies`, and the stream of path constraints pushed
to the solver. -/
structure AsanState where
  queue : List QueueEntry
  exact : DependencySet
  constraints : List PathConstraint
  deriving DecidableEq

/-- Initial state: empty queue, empty exact-dependency set, nothing pushed. -/
def initState : AsanState := ⟨[], ∅, []⟩

/-- `_sym_asan_insert_symbolic_addr_node(value, addr, concrete_addr)` with
`dep = value node's dependency set`:
return if `std::includes(g_exact_dependencies, dep)` (i.e. `dep ⊆ exact`);
return if for some queue entry `std::includes(iter_dep, dep)`
(i.e. `dep ⊆ iter_dep`); otherwise insert `dep ↦ (addr, concrete_addr)`. -/
def sym_asan_insert_symbolic_addr_node (s : AsanState) (dep : DependencySet)
    (addr : SymAddr) (concreteAddr : Nat) : AsanState :=
  if dep ⊆ s.exact then s
  else if s.queue.any (fun e => decide (dep ⊆ e.1)) then s
  else { s with queue := s.queue ++ [(dep, (addr, concreteAddr))] }

/-- Scan of `_sym_asan_constraint_verify`'s loop: find the first entry whose
dependency set is a subset of the branch dependency set
(`std::includes(br_dep, dep)`), returning it together with the queue minus
that entry. -/
def promoteFirst (brDep : DependencySet) : List QueueEntry → Option (QueueEntry × List QueueEntry)
  | [] => none
  | e :: rest =>
    if e.1 ⊆ brDep then some (e, rest)
    else (promoteFirst brDep rest).map fun p => (p.1, e :: p.2)

/-- `_sym_asan_constraint_verify(expr)` with `br_dep = expr node's dependency
set`: no-op on an empty queue; otherwise the first entry with `dep ⊆ br_dep`
is promoted — `_sym_push_path_constraint(_sym_build_equal(_sym_build_integer(
addr_con, 64), addr_sym), 1, 0)` is issued, `dep` is merged into
`g_exact_dependencies`, the entry is erased, and the loop breaks. -/
def sym_asan_constraint_verify (s : AsanState) (brDep : DependencySet) : AsanState :=
  if s.queue = [] then s
  else
    match promoteFirst brDep s.queue with
    | none => s
    | some (e, rest) =>
      { queue := rest
        exact := s.exact ∪ e.1
        constraints := s.constraints ++
          [⟨CExpr.eq (CExpr.const e.2.2 64) (CExpr.sym e.2.1), true, 0⟩] }

/-- `_sym_asan_is_symexpr_exact(expr)`: false if `g_exact_dependencies` is
empty; otherwise `std::includes(g_exact_dependencies, dep)`, i.e. whether the
node's dependency set is a subset of the exact-dependency set. -/
def sym_asan_is_symexpr_exact (s : AsanState) (dep : DependencySet) : Bool :=
  if s.exact = ∅ then false
  else decide (dep ⊆ s.exact)

/-- The state-relevant `_sym_asan_*` entry points. `isExactQuery` is the pure
query `_sym_asan_is_symexpr_exact`, which reads but never writes the state;
no other entry point of the runtime touches `g_delay_constraint_queue` or
`g_exact_dependencies`. -/
inductive AsanOp where
  | insert : DependencySet → SymAddr → Nat → AsanOp
  | verify : DependencySet → AsanOp
  | isExactQuery : DependencySet → AsanOp

/-- Apply one entry point to the state. -/
def applyOp (s : AsanState) : AsanOp → AsanState
  | .insert d a c => sym_asan_insert_symbolic_addr_node s d a c
  | .verify d => sym_asan_constraint_verify s d
  | .isExactQuery _ => s

/-- Run a sequence of entry points. -/
def runOps (s : AsanState) (ops : List AsanOp) : AsanState :=
  ops.foldl applyOp s

/-! Helper lemmas about the insert operation. -/

theorem insert_node_exact_subsumed (s : AsanState) (dep : DependencySet) (a : SymAddr)
    (c : Nat) (h : dep ⊆ s.exact) :
    sym_asan_insert_symbolic_addr_node s dep a c = s := by
  simp [sym_asan_insert_symbolic_addr_node, h]

theorem insert_node_entry_subsumed (s : AsanState) (dep : DependencySet) (a : SymAddr)
    (c : Nat) (h : ∃ e ∈ s.queue, dep ⊆ e.1) :
    sym_asan_insert_symbolic_addr_node s dep a c = s := by
  unfold sym_asan_insert_symbolic_addr_node
  by_cases hx : dep ⊆ s.exact
  · simp [hx]
  · have hy : s.queue.any (fun e => decide (dep ⊆ e.1)) = true := by
      rw [List.any_eq_true]
      obtain ⟨e, he, hsub⟩ := h
      exact ⟨e, he, by simpa using hsub⟩
    simp [hx, hy]

theorem insert_node_appends (s : AsanState) (dep : DependencySet) (a : SymAddr)
    (c : Nat) (h1 : ¬ dep ⊆ s.exact) (h2 : ∀ e ∈ s.queue, ¬ dep ⊆ e.1) :
    sym_asan_insert_symbolic_addr_node s dep a c =
      { s with queue := s.queue ++ [(dep, (a, c))] } := by
  have hany : s.queue.any (fun e => decide (dep ⊆ e.1)) = false := by
    rw [List.any_eq_false]
    intro e he
    simpa using h2 e he
  simp [sym_asan_insert_symbolic_addr_node, h1, hany]

/-! Helper lemmas about the verify scan. -/

theorem promoteFirst_none (brDep : DependencySet) (q : List QueueEntry)
    (h : ∀ x ∈ q, ¬ x.1 ⊆ brDep) : promoteFirst brDep q = none := by
  induction q with
  | nil => rfl
  | cons e rest ih =>
    have he : ¬ e.1 ⊆ brDep := h e (List.mem_cons_self e rest)
    have hr := ih fun x hx => h x (List.mem_cons_of_mem e hx)
    simp [promoteFirst, he, hr]

theorem promoteFirst_first_match (brDep : DependencySet) (pre post : List QueueEntry)
    (e : QueueEntry) (hpre : ∀ x ∈ pre, ¬ x.1 ⊆ brDep) (he : e.1 ⊆ brDep) :
    promoteFirst brDep (pre ++ e :: post) = some (e, pre ++ post) := by
  induction pre with
  | nil => simp [promoteFirst, he]
  | cons a rest ih =>
    have ha : ¬ a.1 ⊆ brDep := hpre a (List.mem_cons_self a rest)
    have hr := ih fun x hx => hpre x (List.mem_cons_of_mem a hx)
    simp [promoteFirst, ha, hr]

theorem promoteFirst_sublist (brDep : DependencySet) :
    ∀ (q rest : List QueueEntry) (e : QueueEntry),
      promoteFirst brDep q = some (e, rest) → rest.Sublist q := by
  intro q
  induction q with
  | nil =>
    intro rest e h
    simp [promoteFirst] at h
  | cons a tl ih =>
    intro rest e h
    by_cases hc : a.1 ⊆ brDep
    · simp only [promoteFirst, if_pos hc, Option.some.injEq, Prod.mk.injEq] at h
      obtain ⟨rfl, rfl⟩ := h
      exact List.sublist_cons_self a tl
    · simp only [promoteFirst, if_neg hc, Option.map_eq_some'] at h
      obtain ⟨⟨p, rest'⟩, hm, hf⟩ := h
      simp only [Prod.mk.injEq] at hf
      obtain ⟨rfl, rfl⟩ := hf
      exact List.Sublist.cons₂ a (ih rest' p hm)

/-! Pairwise-invariant helper lemmas. -/

theorem insert_node_pairwise (s : AsanState) (d : DependencySet) (a : SymAddr) (c : Nat)
    (h : s.queue.Pairwise fun x y => ¬ y.1 ⊆ x.1) :
    ((sym_asan_insert_symbolic_addr_node s d a c).queue).Pairwise
      fun x y => ¬ y.1 ⊆ x.1 := by
  unfold sym_asan_insert_symbolic_addr_node
  split_ifs with h1 h2
  · exact h
  · exact h
  · have hd : ∀ e ∈ s.queue, ¬ d ⊆ e.1 := by
      intro e he hsub
      exact h2 (by rw [List.any_eq_true]; exact ⟨e, he, by simpa using hsub⟩)
    simp only [List.pairwise_append]
    refine ⟨h, List.pairwise_singleton _ _, ?_⟩
    intro x hx y hy
    rw [List.mem_singleton] at hy
    subst hy
    exact hd x hx

theorem constraint_verify_pairwise (s : AsanState) (d : DependencySet)
    (h : s.queue.Pairwise fun x y => ¬ y.1 ⊆ x.1) :
    ((sym_asan_constraint_verify s d).queue).Pairwise fun x y => ¬ y.1 ⊆ x.1 := by
  unfold sym_asan_constraint_verify
  split_ifs with h1
  · exact h
  · cases hm : promoteFirst d s.queue with
    | none => simpa [hm] using h
    | some pr =>
      obtain ⟨e, rest⟩ := pr
      simp only [hm]
      exact h.sublist (promoteFirst_sublist d s.queue rest e hm)

theorem applyOp_pairwise (s : AsanState) (op : AsanOp)
    (h : s.queue.Pairwise fun x y => ¬ y.1 ⊆ x.1) :
    ((applyOp s op).queue).Pairwise fun x y => ¬ y.1 ⊆ x.1 := by
  cases op with
  | insert d a c => exact insert_node_pairwise s d a c h
  | verify d => exact constraint_verify_pairwise s d h
  | isExactQuery d => exact h

theorem applyOp_exact_monotone (s : AsanState) (op : AsanOp) :
    s.exact ⊆ (applyOp s op).exact := by
  cases op with
  | insert d a c =>
    show s.exact ⊆ (sym_asan_insert_symbolic_addr_node s d a c).exact
    unfold sym_asan_insert_symbolic_addr_node
    split_ifs <;> exact Finset.Subset.refl _
  | verify d =>
    show s.exact ⊆ (sym_asan_constraint_verify s d).exact
    unfold sym_asan_constraint_verify
    split_ifs with h1
    · exact Finset.Subset.refl _
    · cases hm : promoteFirst d s.queue with
      | none => simp [hm]
      | some pr =>
        simp only [hm]
        exact Finset.subset_union_left
  | isExactQuery d => exact Finset.Subset.refl _

/-! Theorems settling the claims about the deferred queue. -/

/-- C1: the insert operation discards a candidate whose dependency set is a
subset of the exact-dependency set; discards a candidate when some existing
queue entry's dependency set is a superset of it; and otherwise adds an entry
mapping the dependency set to the (symbolic address, concrete address) pair. -/
theorem insert_symbolic_addr_node_spec (s : AsanState) (dep : DependencySet)
    (a : SymAddr) (c : Nat) :
    (dep ⊆ s.exact → sym_asan_insert_symbolic_addr_node s dep a c = s) ∧
    ((∃ e ∈ s.queue, dep ⊆ e.1) → sym_asan_insert_symbolic_addr_node s dep a c = s) ∧
    (¬ dep ⊆ s.exact → (∀ e ∈ s.queue, ¬ dep ⊆ e.1) →
      sym_asan_insert_symbolic_addr_node s dep a c =
        { s with queue := s.queue ++ [(dep, (a, c))] }) :=
  ⟨insert_node_exact_subsumed s dep a c,
   insert_node_entry_subsumed s dep a c,
   insert_node_appends s dep a c⟩

/-- C1 witness: a fresh candidate is appended to the queue. -/
theorem insert_symbolic_addr_node_spec_witness :
    sym_asan_insert_symbolic_addr_node ⟨[({1}, (7, 70))], ∅, []⟩ {1, 2} 8 80 =
      ⟨[({1}, (7, 70)), ({1, 2}, (8, 80))], ∅, []⟩ :=
  (insert_symbolic_addr_node_spec ⟨[({1}, (7, 70))], ∅, []⟩ {1, 2} 8 80).2.2
    (by decide) (by decide)

/-- C2 counterexample: after inserting dependency sets `{1}` and `{2}`,
inserting a candidate with dependency set `{1, 2}` does NOT leave the queue
unchanged — the candidate is a superset, not a subset, of the resident
entries, so the scan fails to subsume it and it is enqueued. -/
theorem insert_superset_candidate_cex :
    (sym_asan_insert_symbolic_addr_node
        (runOps initState [AsanOp.insert {1} 10 100, AsanOp.insert {2} 11 101])
        {1, 2} 12 102).queue ≠
      (runOps initState [AsanOp.insert {1} 10 100, AsanOp.insert {2} 11 101]).queue := by
  decide

/-- C2 amended: a candidate whose dependency set is a subset of some existing
resident entry's dependency set is dropped; a candidate that is a strict
superset of every resident entry's set is enqueued, so after inserting `{1}`
and `{2}`, inserting `{1, 2}` appends a third entry. -/
theorem insert_subset_candidate_dropped (s : AsanState) (dep : DependencySet)
    (a : SymAddr) (c : Nat) :
    ((∃ e ∈ s.queue, dep ⊆ e.1) → sym_asan_insert_symbolic_addr_node s dep a c = s) ∧
    (runOps initState [AsanOp.insert {1} 10 100, AsanOp.insert {2} 11 101,
        AsanOp.insert {1, 2} 12 102]).queue =
      [({1}, (10, 100)), ({2}, (11, 101)), ({1, 2}, (12, 102))] :=
  ⟨insert_node_entry_subsumed s dep a c, by decide⟩

/-- C2 amended witness: a candidate `{1}` is dropped when `{1, 2}` is already
resident. -/
theorem insert_subset_candidate_dropped_witness :
    sym_asan_insert_symbolic_addr_node ⟨[({1, 2}, (9, 90))], ∅, []⟩ {1} 5 50 =
      ⟨[({1, 2}, (9, 90))], ∅, []⟩ :=
  (insert_subset_candidate_dropped ⟨[({1, 2}, (9, 90))], ∅, []⟩ {1} 5 50).1
    ⟨({1, 2}, (9, 90)), by decide, by decide⟩

/-- C3: the verify operation is a no-op on an empty queue; otherwise the first
scanned entry whose dependency set is a subset of the branch dependency set is
promoted — an equality between a 64-bit constant for its concrete address and
its symbolic address expression is pushed as a path constraint with taken true
and site id 0, its dependency set is merged into the exact-dependency set, and
the entry is removed, all other entries remaining resident; when no entry
matches, nothing changes. -/
theorem constraint_verify_spec (s : AsanState) (brDep : DependencySet) :
    (s.queue = [] → sym_asan_constraint_verify s brDep = s) ∧
    (∀ pre e post, s.queue = pre ++ e :: post → (∀ x ∈ pre, ¬ x.1 ⊆ brDep) →
      e.1 ⊆ brDep →
      sym_asan_constraint_verify s brDep =
        { queue := pre ++ post
          exact := s.exact ∪ e.1
          constraints := s.constraints ++
            [⟨CExpr.eq (CExpr.const e.2.2 64) (CExpr.sym e.2.1), true, 0⟩] }) ∧
    ((∀ x ∈ s.queue, ¬ x.1 ⊆ brDep) → sym_asan_constraint_verify s brDep = s) := by
  refine ⟨fun h => ?_, fun pre e post hq hpre he => ?_, fun h => ?_⟩
  · simp [sym_asan_constraint_verify, h]
  · have hne : ¬ s.queue = [] := by simp [hq]
    have hp : promoteFirst brDep s.queue = some (e, pre ++ post) := by
      rw [hq]
      exact promoteFirst_first_match brDep pre post e hpre he
    simp [sym_asan_constraint_verify, hne, hp]
  · by_cases hq : s.queue = []
    · simp [sym_asan_constraint_verify, hq]
    · have hp : promoteFirst brDep s.queue = none := promoteFirst_none brDep s.queue h
      simp [sym_asan_constraint_verify, hq, hp]

/-- C3 witness: a single matching entry is promoted to a path constraint. -/
theorem constraint_verify_spec_witness :
    sym_asan_constraint_verify ⟨[({3}, (7, 70))], ∅, []⟩ {3, 4} =
      ⟨[], {3}, [⟨CExpr.eq (CExpr.const 70 64) (CExpr.sym 7), true, 0⟩]⟩ := by
  have h := (constraint_verify_spec ⟨[({3}, (7, 70))], ∅, []⟩ {3, 4}).2.1
    [] ({3}, (7, 70)) [] rfl (by decide) (by decide)
  rw [h]
  decide

/-- C4 counterexample: inserting `{1}` then `{1, 2}` leaves two resident
entries in a subset relation; and after promoting `{3}` and `{4, 5}` the
resident entry `{3, 4}` is a subset of the exact-dependency set. -/
theorem subsumption_invariant_cex :
    (∃ x ∈ (runOps initState
        [AsanOp.insert {1} 10 100, AsanOp.insert {1, 2} 11 101]).queue,
      ∃ y ∈ (runOps initState
        [AsanOp.insert {1} 10 100, AsanOp.insert {1, 2} 11 101]).queue,
        x ≠ y ∧ x.1 ⊆ y.1) ∧
    (∃ e ∈ (runOps initState
        [AsanOp.insert {3} 20 200, AsanOp.insert {3, 4} 21 201, AsanOp.verify {3},
         AsanOp.insert {4, 5} 22 202, AsanOp.verify {4, 5}]).queue,
      e.1 ⊆ (runOps initState
        [AsanOp.insert {3} 20 200, AsanOp.insert {3, 4} 21 201, AsanOp.verify {3},
         AsanOp.insert {4, 5} 22 202, AsanOp.verify {4, 5}]).exact) := by
  decide

/-- C4 amended: after any sequence of insert and verify calls starting from
the empty state, no resident entry's dependency set is a subset of the
dependency set of an entry scanned before it (entries are appended only after
the subsumption scan); an earlier entry may still be a strict subset of a
later one, and a resident entry may become a subset of the exact-dependency
set after later promotions. -/
theorem deferred_queue_pairwise (ops : List AsanOp) :
    ((runOps initState ops).queue).Pairwise fun x y => ¬ y.1 ⊆ x.1 := by
  have main : ∀ (l : List AsanOp) (s : AsanState),
      (s.queue.Pairwise fun x y => ¬ y.1 ⊆ x.1) →
      ((runOps s l).queue).Pairwise fun x y => ¬ y.1 ⊆ x.1 := by
    intro l
    induction l with
    | nil => intro s h; exact h
    | cons op tl ih =>
      intro s h
      exact ih (applyOp s op) (applyOp_pairwise s op h)
  exact main ops initState List.Pairwise.nil

/-- C5: the exact-dependency set grows monotonically across any sequence of
runtime operations — only the verify promotion writes it, and it only merges
new elements in. -/
theorem exact_dependencies_monotone (s : AsanState) (ops : List AsanOp) :
    s.exact ⊆ (runOps s ops).exact := by
  induction ops generalizing s with
  | nil => exact Finset.Subset.refl _
  | cons op tl ih =>
    exact Finset.Subset.trans (applyOp_exact_monotone s op) (ih (applyOp s op))

/-- C6 counterexample: on the initial state (empty exact-dependency set), the
exactness query on a node with an empty dependency set returns false although
the empty set is a subset of the exact-dependency set. -/
theorem is_symexpr_exact_empty_cex :
    sym_asan_is_symexpr_exact initState ∅ = false ∧
    (∅ : Finset Nat) ⊆ initState.exact := by
  decide

/-- C6 amended: the exactness query returns true iff the exact-dependency set
is nonempty AND the node's dependency set is a subset of it; when the
exact-dependency set is empty the query returns false even for an empty
dependency set. -/
theorem is_symexpr_exact_iff (s : AsanState) (dep : DependencySet) :
    sym_asan_is_symexpr_exact s dep = true ↔ s.exact ≠ ∅ ∧ dep ⊆ s.exact := by
  unfold sym_asan_is_symexpr_exact
  by_cases h : s.exact = ∅ <;> simp [h]

/-! Solver facade: the assertion stack touched by `_sym_feasible`. -/

/-- An assertion handed to the solver (`z3::expr`), opaque here. -/
abbrev ZAssertion := Nat

/-- The solver's assertion state: the permanently asserted constraints plus a
stack of backtracking scopes opened by `push` and discarded by `pop`. -/
structure SolverState where
  permanent : List ZAssertion
  scopes : List (List ZAssertion)
  deriving DecidableEq

/-- `g_solver->push()`: open a fresh empty scope. -/
def solverPush (s : SolverState) : SolverState :=
  { s with scopes := [] :: s.scopes }

/-- `g_solver->add(e)`: assert into the innermost scope when one is open,
otherwise permanently. -/
def solverAdd (s : SolverState) (e : ZAssertion) : SolverState :=
  match s.scopes with
  | [] => { s with permanent := e :: s.permanent }
  | top :: rest => { s with scopes := (e :: top) :: rest }

/-- `g_solver->pop()`: discard the innermost scope and its assertions. -/
def solverPop (s : SolverState) : SolverState :=
  { s with scopes := s.scopes.tail }

/-- Outcome of `g_solver->check()`: either a definite boolean answer
(`check() == z3::sat`), or an internal solver fault (a C++ exception
propagating out of the check). -/
inductive CheckResult where
  | result : Bool → CheckResult
  | fault : CheckResult
  deriving DecidableEq

/-- `_sym_feasible(expr)`: after `expr->simplify()`, the code runs
`push(); add(expr->toZ3Expr()); feasible = (check() == z3::sat); pop();` as a
straight-line sequence with no exception handler, so a fault raised by the
check propagates before the `pop` executes. The check outcome is supplied by
the oracle `check`; `e` is the (already simplified) assertion. The returned
pair is the call's outcome and the solver state after the call (for a fault,
the state at the point the exception escapes). -/
def sym_feasible (check : SolverState → CheckResult) (e : ZAssertion)
    (s : SolverState) : CheckResult × SolverState :=
  let s1 := solverPush s
  let s2 := solverAdd s1 e
  match check s2 with
  | .result b => (.result b, solverPop s2)
  | .fault => (.fault, s2)

/-- C7 counterexample: with a faulting check, the scope pushed by
`_sym_feasible` is NOT popped — the solver is left with the extra scope (and
its assertion) still on the stack. -/
theorem feasible_fault_scope_cex :
    ((sym_feasible (fun _ => CheckResult.fault) 5 ⟨[], []⟩).2).scopes = [[5]] ∧
    ([[5]] : List (List ZAssertion)) ≠ (⟨[], []⟩ : SolverState).scopes := by
  decide

/-- C7 amended: when the check returns a definite result, `_sym_feasible`
pushes one scope, asserts the expression in it, pops the scope and returns the
result, restoring the entire solver state (in particular the permanent
assertions); when the check raises an internal fault, the fault propagates
with the pushed scope still in place — only the permanent assertions are
still untouched. -/
theorem feasible_scoping (check : SolverState → CheckResult) (e : ZAssertion)
    (s : SolverState) :
    (∀ b, check (solverAdd (solverPush s) e) = CheckResult.result b →
      sym_feasible check e s = (CheckResult.result b, s)) ∧
    (check (solverAdd (solverPush s) e) = CheckResult.fault →
      sym_feasible check e s = (CheckResult.fault, solverAdd (solverPush s) e) ∧
      (solverAdd (solverPush s) e).permanent = s.permanent) := by
  constructor
  · intro b hb
    simp only [sym_feasible, hb]
    rfl
  · intro hb
    refine ⟨by simp only [sym_feasible, hb], rfl⟩

/-- C7 witness: a concrete balanced call returns the check's answer and leaves
the solver state exactly as it was. -/
theorem feasible_scoping_witness :
    sym_feasible (fun _ => CheckResult.result true) 3 ⟨[9], []⟩ =
      (CheckResult.result true, ⟨[9], []⟩) :=
  (feasible_scoping (fun _ => CheckResult.result true) 3 ⟨[9], []⟩).1 true rfl

/-! Expression registry and garbage collection. -/

/-- The registry `allocatedExpressions`: raw expression identity mapped to the
owning reference (opaque here), modelled as an association list. -/
abbrev Registry := List (Nat × Nat)

/-- `_sym_collect_garbage()`: return untouched while the registry is smaller
than `g_config.garbageCollectionThreshold`; otherwise erase every entry whose
identity is not in the reachable set computed by the external
`collectReachableExpressions()` oracle. -/
def collectGarbage (threshold : Nat) (reachable : Finset Nat) (reg : Registry) :
    Registry :=
  if reg.length < threshold then reg
  else reg.filter fun kv => decide (kv.1 ∈ reachable)

theorem lookup_filter_unreachable (reachable : Finset Nat) (k : Nat)
    (hk : k ∉ reachable) :
    ∀ l : Registry, (l.filter fun kv => decide (kv.1 ∈ reachable)).lookup k = none := by
  intro l
  induction l with
  | nil => rfl
  | cons kv rest ih =>
    by_cases hm : kv.1 ∈ reachable
    · have hne : (k == kv.1) = false := by
        rw [beq_eq_false_iff_ne]
        intro hEq
        exact hk (hEq ▸ hm)
      simp [List.filter_cons, hm, List.lookup, hne, ih]
    · simp [List.filter_cons, hm, ih]

/-- C8: below the threshold, garbage collection is a no-op; at or above it,
the registry afterwards holds exactly the previously resident entries whose
identity is reachable — reachable entries keep a successful lookup and
unreachable identities are absent. -/
theorem collect_garbage_spec (t : Nat) (reachable : Finset Nat) (reg : Registry) :
    (reg.length < t → collectGarbage t reachable reg = reg) ∧
    (t ≤ reg.length →
      (∀ kv ∈ reg, kv.1 ∈ reachable → kv ∈ collectGarbage t reachable reg) ∧
      (∀ kv ∈ collectGarbage t reachable reg, kv ∈ reg ∧ kv.1 ∈ reachable) ∧
      (∀ k, k ∉ reachable → (collectGarbage t reachable reg).lookup k = none)) := by
  constructor
  · intro h
    simp [collectGarbage, h]
  · intro h
    have hnot : ¬ reg.length < t := not_lt.mpr h
    refine ⟨?_, ?_, ?_⟩
    · intro kv hkv hr
      simp [collectGarbage, hnot, List.mem_filter, hkv, hr]
    · intro kv hkv
      simp only [collectGarbage, if_neg hnot, List.mem_filter,
        decide_eq_true_eq] at hkv
      exact hkv
    · intro k hk
      simp only [collectGarbage, if_neg hnot]
      exact lookup_filter_unreachable reachable k hk reg

/-- C8 witness: with threshold 1, reachable set `{1}`, registry
`[(1, 10), (2, 20)]`, entry 1 survives and identity 2's lookup fails. -/
theorem collect_garbage_spec_witness :
    (1, 10) ∈ collectGarbage 1 {1} [(1, 10), (2, 20)] ∧
    (collectGarbage 1 {1} [(1, 10), (2, 20)]).lookup 2 = none :=
  ⟨((collect_garbage_spec 1 {1} [(1, 10), (2, 20)]).2 (by decide)).1
      (1, 10) (by decide) (by decide),
   ((collect_garbage_spec 1 {1} [(1, 10), (2, 20)]).2 (by decide)).2.2
      2 (by decide)⟩

/-! Test-case handler registration and consultation. -/

/-- The process-wide handler `g_test_case_handler`; `none` is the null
pointer. A handler is identified by an opaque number. -/
structure HandlerState where
  handler : Option Nat
  deriving DecidableEq

/-- `g_test_case_handler = nullptr` at process start. -/
def initHandlerState : HandlerState := ⟨none⟩

/-- `symcc_set_test_case_handler(handler)`: unconditionally overwrite the
stored handler. -/
def symcc_set_test_case_handler (_s : HandlerState) (h : Option Nat) : HandlerState :=
  { handler := h }

/-- What `EnhancedQsymSolver::saveValues` does when the solver persists a
satisfying assignment. -/
inductive SaveAction where
  | callHandler : Nat → SaveAction
  | defaultSave : SaveAction
  deriving DecidableEq

/-- `EnhancedQsymSolver::saveValues(suffix)`: if a handler is registered
(non-null), call it with the concrete values; otherwise fall back to the
default `Solver::saveValues` persistence. -/
def saveValues (s : HandlerState) : SaveAction :=
  match s.handler with
  | some h => SaveAction.callHandler h
  | none => SaveAction.defaultSave

/-- C9 counterexample: registering handler 1 and then handler 2 makes the
solver consult handler 2 — a later registration call does change which
handler is consulted. -/
theorem set_test_case_handler_once_cex :
    saveValues (symcc_set_test_case_handler
        (symcc_set_test_case_handler initHandlerState (some 1)) (some 2)) =
      SaveAction.callHandler 2 ∧
    SaveAction.callHandler 2 ≠ SaveAction.callHandler 1 := by
  decide

/-- C9 amended: the handler is unset at process start, and every registration
call unconditionally overwrites it, so after any sequence of registrations the
most recent one is the handler consulted when the solver would persist a
satisfying assignment (a null registration restores the default persistence). -/
theorem set_test_case_handler_last_wins (s : HandlerState) (hs : List (Option Nat))
    (h : Option Nat) :
    initHandlerState.handler = none ∧
    ((hs ++ [h]).foldl symcc_set_test_case_handler s).handler = h ∧
    saveValues ((hs ++ [h]).foldl symcc_set_test_case_handler s) =
      (match h with
       | some n => SaveAction.callHandler n
       | none => SaveAction.defaultSave) := by
  have hfold : (hs ++ [h]).foldl symcc_set_test_case_handler s = ⟨h⟩ := by
    rw [List.foldl_append]
    rfl
  rw [hfold]
  exact ⟨rfl, rfl, rfl⟩

/-! Expression-construction entry points and their null-operand behavior. -/

/-- A raw `SymExpr` as seen by instrumented code: `none` is the null
identity ("not tracked"), `some i` a live expression identity. -/
abbrev SymExprId := Option Nat

/-- The registry keyed by the raw `SymExpr` values; `registerExpression` only
ever inserts `expr.get()` of a live owning reference, so the null identity is
never a key. -/
abbrev ExprRegistry := List (Nat × Nat)

/-- `allocatedExpressions.at(k)`: a successful lookup for a registered
identity; `std::map::at` throws for an absent key, in particular for the null
identity, which is never registered. -/
def registryAt (reg : ExprRegistry) (k : SymExprId) : Except Unit Nat :=
  match k with
  | none => Except.error ()
  | some i =>
    match reg.lookup i with
    | some node => Except.ok node
    | none => Except.error ()

/-- `registerExpression(expr)`: first-writer-wins insertion of the raw
identity, returning it. -/
def registerExpression (reg : ExprRegistry) (id node : Nat) :
    SymExprId × ExprRegistry :=
  if (reg.lookup id).isSome then (some id, reg)
  else (some id, reg ++ [(id, node)])

/-- `_sym_build_sext(expr, bits)`: return null for a null operand before any
registry access; otherwise look the operand up, have the expression builder
create the sign extension (modelled by the oracle `mk`, covering
`createSExt(node, bits + expr->bits())`), and register the result. -/
def sym_build_sext (mk : Nat → Nat → Nat × Nat) (reg : ExprRegistry)
    (expr : SymExprId) (bits : Nat) : Except Unit (SymExprId × ExprRegistry) :=
  match expr with
  | none => Except.ok (none, reg)
  | some i => do
    let node ← registryAt reg (some i)
    Except.ok (registerExpression reg (mk node bits).1 (mk node bits).2)

/-- `_sym_build_zext(expr, bits)`: same null guard as `_sym_build_sext`. -/
def sym_build_zext (mk : Nat → Nat → Nat × Nat) (reg : ExprRegistry)
    (expr : SymExprId) (bits : Nat) : Except Unit (SymExprId × ExprRegistry) :=
  match expr with
  | none => Except.ok (none, reg)
  | some i => do
    let node ← registryAt reg (some i)
    Except.ok (registerExpression reg (mk node bits).1 (mk node bits).2)

/-- `_sym_build_trunc(expr, bits)`: same null guard. -/
def sym_build_trunc (mk : Nat → Nat → Nat × Nat) (reg : ExprRegistry)
    (expr : SymExprId) (bits : Nat) : Except Unit (SymExprId × ExprRegistry) :=
  match expr with
  | none => Except.ok (none, reg)
  | some i => do
    let node ← registryAt reg (some i)
    Except.ok (registerExpression reg (mk node bits).1 (mk node bits).2)

/-- `_sym_build_bool_to_bit(expr)`: same null guard (the builder call is
`boolToBit(node, 1)`). -/
def sym_build_bool_to_bit (mk : Nat → Nat × Nat) (reg : ExprRegistry)
    (expr : SymExprId) : Except Unit (SymExprId × ExprRegistry) :=
  match expr with
  | none => Except.ok (none, reg)
  | some i => do
    let node ← registryAt reg (some i)
    Except.ok (registerExpression reg (mk node).1 (mk node).2)

/-- A binary builder from `DEF_BINARY_EXPR_BUILDER` (e.g. `_sym_build_add`):
both operands go straight through `allocatedExpressions.at` with no null
guard. -/
def sym_build_add (mk : Nat → Nat → Nat × Nat) (reg : ExprRegistry)
    (a b : SymExprId) : Except Unit (SymExprId × ExprRegistry) := do
  let na ← registryAt reg a
  let nb ← registryAt reg b
  Except.ok (registerExpression reg (mk na nb).1 (mk na nb).2)

/-- `_sym_build_neg(expr)`: a unary builder, likewise with an unguarded
registry lookup. -/
def sym_build_neg (mk : Nat → Nat × Nat) (reg : ExprRegistry)
    (expr : SymExprId) : Except Unit (SymExprId × ExprRegistry) := do
  let n ← registryAt reg expr
  Except.ok (registerExpression reg (mk n).1 (mk n).2)

/-- C10: the sign-extension, zero-extension, truncation and bool-to-bit entry
points return the null identity for a null operand, for EVERY registry state
and without modifying it (the result does not depend on the registry at all);
the binary builders — and likewise the unary ones — perform an unguarded
registry lookup, which faults on a null operand since the null identity is
never registered. -/
theorem null_guarded_builders (mk2 : Nat → Nat → Nat × Nat) (mk1 : Nat → Nat × Nat)
    (reg : ExprRegistry) (bits : Nat) (b : SymExprId) :
    sym_build_sext mk2 reg none bits = Except.ok (none, reg) ∧
    sym_build_zext mk2 reg none bits = Except.ok (none, reg) ∧
    sym_build_trunc mk2 reg none bits = Except.ok (none, reg) ∧
    sym_build_bool_to_bit mk1 reg none = Except.ok (none, reg) ∧
    sym_build_add mk2 reg none b = Except.error () ∧
    sym_build_neg mk1 reg none = Except.error () :=
  ⟨rfl, rfl, rfl, rfl, rfl, rfl⟩

end SymccRuntime
